import Mathlib

/-!
Verification of the figma-for-llms extraction plugin.

Shallow embedding of the plugin host (`src/canvas.ts`) and the display
surface (`src/components/DefaultView.tsx` and the unnamed UI source file):
the color codec, the paint normalizer, the recursive node-tree extractor,
the selection-sync message protocol, and the token estimator.

Numbers that are JavaScript `number`s in the source are modelled as exact
rationals; `Math.round` is modelled as the half-up rounding on rationals.
Optional (capability-gated) object fields are modelled with `Option`,
`none` standing for an absent field / `undefined`.
-/

set_option maxRecDepth 16384

/-- JavaScript `Math.round`: rounds half-up, i.e. `⌊x + 1/2⌋`. -/
def jsRound (q : ℚ) : ℤ := Int.floor (q + 1/2)

/-- JavaScript `n.toString(16)` for a natural number: lower-case hex digits,
no padding.  `Nat.toDigits 16` produces exactly the lower-case digits. -/
def natToHexStr (n : Nat) : String := String.mk (Nat.toDigits 16 n)

/-- JavaScript `i.toString(16)` for an integer (negative values render as
a minus sign followed by the hex digits of the absolute value). -/
def intToHexStr (i : ℤ) : String :=
  if i < 0 then "-" ++ natToHexStr i.natAbs else natToHexStr i.toNat

/-- JavaScript `s.padStart(2, char48)` where `char48` is the zero digit:
prepends zero digits until the length is at least 2. -/
def padStart2 (s : String) : String :=
  if s.length < 2 then String.mk (List.replicate (2 - s.length) '0') ++ s else s

/-- An `RGB | RGBA` input color: channels in 0..1, optional alpha
(`none` models a plain `RGB` value with no `a` property). -/
structure Color where
  r : ℚ
  g : ℚ
  b : ℚ
  a : Option ℚ
deriving DecidableEq

/-- The record built by `extractColor`: channels, defaulted alpha, and the
derived hex string. -/
structure ExtractedColor where
  r : ℚ
  g : ℚ
  b : ℚ
  a : ℚ
  hex : String
deriving DecidableEq

/-- Function `extractColor` from `src/canvas.ts` (lines 18-40): copies the channels,
defaults a missing alpha to 1, and derives the hex string from
`Math.round(channel * 255).toString(16).padStart(2, zero)` per channel. -/
def extractColor (color : Color) : ExtractedColor :=
  { r := color.r
    g := color.g
    b := color.b
    a := color.a.getD 1
    hex := "#" ++ padStart2 (intToHexStr (jsRound (color.r * 255)))
               ++ padStart2 (intToHexStr (jsRound (color.g * 255)))
               ++ padStart2 (intToHexStr (jsRound (color.b * 255))) }

/-- A `Paint` object as probed by the source at runtime: a `type`
discriminant, an optional `opacity` property and an optional `color`
property.  The Figma `Paint` union guarantees that exactly the `SOLID`
variant carries a `color`; that contract is `Paint.WF` below. -/
structure Paint where
  type : String
  opacity : Option ℚ
  color : Option Color
deriving DecidableEq

/-- The static contract of the Figma `Paint` union: a `color` property is
present exactly on `SOLID` paints. -/
def Paint.WF (p : Paint) : Prop := p.color.isSome ↔ p.type = "SOLID"

instance (p : Paint) : Decidable p.WF := by unfold Paint.WF; infer_instance

/-- The record built per paint by `extractPaints`. -/
structure ExtractedPaint where
  type : String
  opacity : ℚ
  color : Option ExtractedColor
deriving DecidableEq

/-- Function `extractPaints` from `src/canvas.ts` (lines 42-58): one output record
per input, copying `type`, defaulting a missing `opacity` to 1, and
attaching an extracted color exactly when `paint.type === 'SOLID'` and the
paint has a `color` property. -/
def extractPaints (paints : List Paint) : List ExtractedPaint :=
  paints.map fun paint =>
    { type := paint.type
      opacity := paint.opacity.getD 1
      color := if paint.type = "SOLID" then paint.color.map extractColor else none }

/-- A `SceneNode` as probed by the source: `name` and `type` are always
present; every other property is capability-gated (`Option`).  The field
order matches the order in which `extractNodeData` copies them:
name, type, width, height, layoutMode, primaryAxisSizingMode,
counterAxisSizingMode, primaryAxisAlignItems, counterAxisAlignItems,
fills, strokes, strokeWeight, strokeAlign, strokeCap, strokeJoin,
children.  `children` is present exactly on container-capable nodes. -/
inductive SceneNode where
  | mk (name : String) (type : String)
       (width height : Option ℚ)
       (layoutMode primaryAxisSizingMode counterAxisSizingMode : Option String)
       (primaryAxisAlignItems counterAxisAlignItems : Option String)
       (fills strokes : Option (List Paint))
       (strokeWeight : Option ℚ)
       (strokeAlign strokeCap strokeJoin : Option String)
       (children : Option (List SceneNode)) : SceneNode

/-- The `children` capability of a scene node. -/
def SceneNode.children : SceneNode → Option (List SceneNode)
  | .mk _ _ _ _ _ _ _ _ _ _ _ _ _ _ _ ch => ch

/-- The record built by `extractNodeData`: every capability-gated field of
the source node, plus the mutually exclusive `children` / `childrenCount`
pair. -/
inductive ExtractedNode where
  | mk (name : String) (type : String)
       (width height : Option ℚ)
       (layoutMode primaryAxisSizingMode counterAxisSizingMode : Option String)
       (primaryAxisAlignItems counterAxisAlignItems : Option String)
       (fills strokes : Option (List ExtractedPaint))
       (strokeWeight : Option ℚ)
       (strokeAlign strokeCap strokeJoin : Option String)
       (children : Option (List ExtractedNode))
       (childrenCount : Option Nat) : ExtractedNode

/-- The `children` field of an extracted record (`none` = field absent). -/
def ExtractedNode.children : ExtractedNode → Option (List ExtractedNode)
  | .mk _ _ _ _ _ _ _ _ _ _ _ _ _ _ _ ch _ => ch

/-- The `childrenCount` field of an extracted record (`none` = absent). -/
def ExtractedNode.childrenCount : ExtractedNode → Option Nat
  | .mk _ _ _ _ _ _ _ _ _ _ _ _ _ _ _ _ cnt => cnt

mutual

/-- Function `extractNodeData` from `src/canvas.ts` (lines 60-114): copies every
capability-gated field that is present, then handles children: if the node
has a `children` property and `expandContent` is true it recurses into
every child with the same flag; if the property exists and the flag is
false it records only `children.length`; with no `children` property it
sets neither field. -/
def extractNodeData : SceneNode → Bool → ExtractedNode
  | SceneNode.mk name type w h lm pasm casm paai caai fills strokes sw sa sc sj ch,
    expandContent =>
      ExtractedNode.mk name type w h lm pasm casm paai caai
        (fills.map extractPaints) (strokes.map extractPaints) sw sa sc sj
        (match ch with
          | some cs => if expandContent then some (extractChildren cs expandContent) else none
          | none => none)
        (match ch with
          | some cs => if expandContent then none else some cs.length
          | none => none)

/-- The `for (const child of node.children)` loop body of
`extractNodeData`: extracts each child in order with the same flag. -/
def extractChildren : List SceneNode → Bool → List ExtractedNode
  | [], _ => []
  | c :: cs, expandContent =>
      extractNodeData c expandContent :: extractChildren cs expandContent

end

theorem extractChildren_eq_map (cs : List SceneNode) (e : Bool) :
    extractChildren cs e = cs.map (fun c => extractNodeData c e) := by
  induction cs with
  | nil => simp [extractChildren]
  | cons c cs ih => simp [extractChildren, ih]

theorem SceneNode.sizeOf_pos (n : SceneNode) : 0 < sizeOf n := by
  cases n; simp only [SceneNode.mk.sizeOf_spec]; omega

theorem SceneNode.sizeOf_child_lt {n : SceneNode} {cs : List SceneNode}
    (hch : n.children = some cs) {c : SceneNode} (hc : c ∈ cs) :
    sizeOf c < sizeOf n := by
  cases n with
  | mk name type w h lm pasm casm paai caai fills strokes sw sa sc sj ch =>
    simp only [SceneNode.children] at hch
    subst hch
    have h1 : sizeOf c < sizeOf cs := List.sizeOf_lt_of_mem hc
    simp only [SceneNode.mk.sizeOf_spec, Option.some.sizeOf_spec]
    omega

/-- The per-level relation between a source node and its extracted record
that the spec's children invariant asserts: with no `children` capability
neither output field is set; with the capability exactly one of
`children` / `childrenCount` is set, `childrenCount` (when set) is the
exact child count, and (when set) the extracted children satisfy the same
relation against the source children pointwise. -/
inductive NodeInv : SceneNode → ExtractedNode → Prop where
  | noCap {n e} :
      n.children = none →
      e.children = none → e.childrenCount = none → NodeInv n e
  | counted {n e cs} :
      n.children = some cs →
      e.children = none → e.childrenCount = some cs.length → NodeInv n e
  | expanded {n : SceneNode} {e : ExtractedNode}
      {cs : List SceneNode} {es : List ExtractedNode} :
      n.children = some cs →
      e.children = some es → e.childrenCount = none →
      es.length = cs.length →
      (∀ (i : Nat) (c : SceneNode) (ce : ExtractedNode),
          cs[i]? = some c → es[i]? = some ce → NodeInv c ce) →
      NodeInv n e

theorem nodeInv_extract_aux :
    ∀ (k : Nat) (n : SceneNode), sizeOf n ≤ k →
      ∀ expandContent, NodeInv n (extractNodeData n expandContent) := by
  intro k
  induction k with
  | zero =>
    intro n hn
    exact absurd hn (by have := SceneNode.sizeOf_pos n; omega)
  | succ k ih =>
    intro n hn expandContent
    cases n with
    | mk name type w h lm pasm casm paai caai fills strokes sw sa sc sj ch =>
      cases ch with
      | none =>
        exact NodeInv.noCap rfl
          (by simp [extractNodeData, ExtractedNode.children])
          (by simp [extractNodeData, ExtractedNode.childrenCount])
      | some cs =>
        cases expandContent with
        | false =>
          exact NodeInv.counted rfl
            (by simp [extractNodeData, ExtractedNode.children])
            (by simp [extractNodeData, ExtractedNode.childrenCount])
        | true =>
          have hch : (extractNodeData (SceneNode.mk name type w h lm pasm casm paai
              caai fills strokes sw sa sc sj (some cs)) true).children
              = some (extractChildren cs true) := by
            simp [extractNodeData, ExtractedNode.children]
          refine NodeInv.expanded rfl hch
            (by simp [extractNodeData, ExtractedNode.childrenCount])
            (by rw [extractChildren_eq_map]; exact List.length_map cs _) ?_
          intro i c ce hc hce
          rw [extractChildren_eq_map] at hce
          rw [List.getElem?_map, hc] at hce
          simp only [Option.map_some'] at hce
          have hmem : c ∈ cs := List.getElem?_mem hc
          have hsz : sizeOf c < sizeOf (SceneNode.mk name type w h lm pasm casm paai
              caai fills strokes sw sa sc sj (some cs)) :=
            SceneNode.sizeOf_child_lt (n := SceneNode.mk name type w h lm pasm casm
              paai caai fills strokes sw sa sc sj (some cs)) rfl hmem
          obtain rfl : extractNodeData c true = ce := Option.some.inj hce
          exact ih c (by omega) true

mutual

/-- The number of nodes in a source scene-graph subtree. -/
def SceneNode.countNodes : SceneNode → Nat
  | SceneNode.mk _ _ _ _ _ _ _ _ _ _ _ _ _ _ _ ch =>
      1 + (match ch with
            | some cs => SceneNode.countList cs
            | none => 0)

/-- The total node count of a list of source subtrees. -/
def SceneNode.countList : List SceneNode → Nat
  | [] => 0
  | c :: cs => SceneNode.countNodes c + SceneNode.countList cs

end

mutual

/-- The number of records in an extracted tree, following `children`. -/
def ExtractedNode.countNodes : ExtractedNode → Nat
  | ExtractedNode.mk _ _ _ _ _ _ _ _ _ _ _ _ _ _ _ ch _ =>
      1 + (match ch with
            | some es => ExtractedNode.countList es
            | none => 0)

/-- The total record count of a list of extracted trees. -/
def ExtractedNode.countList : List ExtractedNode → Nat
  | [] => 0
  | e :: es => ExtractedNode.countNodes e + ExtractedNode.countList es

end

/-- Every record of an extracted tree, at every nesting level reachable
through `children`, satisfies `P`. -/
inductive AllNodesP (P : ExtractedNode → Prop) : ExtractedNode → Prop where
  | node {e : ExtractedNode} :
      P e →
      (∀ es : List ExtractedNode, e.children = some es →
        ∀ x ∈ es, AllNodesP P x) →
      AllNodesP P e

theorem countNodes_extract_aux :
    ∀ (k : Nat) (n : SceneNode), sizeOf n ≤ k →
      ExtractedNode.countNodes (extractNodeData n true) = SceneNode.countNodes n := by
  intro k
  induction k with
  | zero =>
    intro n hn
    exact absurd hn (by have := SceneNode.sizeOf_pos n; omega)
  | succ k ih =>
    intro n hn
    cases n with
    | mk name type w h lm pasm casm paai caai fills strokes sw sa sc sj ch =>
      cases ch with
      | none =>
        simp [extractNodeData, ExtractedNode.countNodes, SceneNode.countNodes]
      | some cs =>
        simp only [extractNodeData, ExtractedNode.countNodes, SceneNode.countNodes,
          if_true]
        have hlist : ∀ cs' : List SceneNode,
            (∀ c ∈ cs', ExtractedNode.countNodes (extractNodeData c true)
              = SceneNode.countNodes c) →
            ExtractedNode.countList (extractChildren cs' true)
              = SceneNode.countList cs' := by
          intro cs' hall
          induction cs' with
          | nil => simp [extractChildren, ExtractedNode.countList, SceneNode.countList]
          | cons c cs'' ih' =>
            simp only [extractChildren, ExtractedNode.countList, SceneNode.countList]
            rw [hall c (List.mem_cons_self c cs''),
              ih' (fun x hx => hall x (List.mem_cons_of_mem c hx))]
        rw [hlist cs ?_]
        intro c hc
        have hsz : sizeOf c < sizeOf (SceneNode.mk name type w h lm pasm casm paai
            caai fills strokes sw sa sc sj (some cs)) :=
          SceneNode.sizeOf_child_lt (n := SceneNode.mk name type w h lm pasm casm
            paai caai fills strokes sw sa sc sj (some cs)) rfl hc
        exact ih c (by omega)

/-- A childless sample node (no capability-gated property present). -/
def demoChild : SceneNode :=
  SceneNode.mk ("child") ("RECTANGLE")
    none none none none none none none none none none none none none none

/-- A container-capable sample node with one child. -/
def demoParent : SceneNode :=
  SceneNode.mk ("parent") ("FRAME")
    none none none none none none none none none none none none none
    (some [demoChild])

/-- C1: for every scene node and every value of the expand flag, the record
returned by the extractor satisfies, at every level: a container-capable
source node yields exactly one of `children` / `childrenCount`, with
`childrenCount` (when present) equal to the exact child count of the
source node, and a node without the `children` capability yields neither
field. -/
theorem extract_children_invariant (n : SceneNode) (expandContent : Bool) :
    NodeInv n (extractNodeData n expandContent) :=
  nodeInv_extract_aux (sizeOf n) n le_rfl expandContent

/-- C2: `extract(node, false)` has no `children` field at any level of the
returned tree; `extract(node, true)` recurses into every child with the
same flag (the `children` field is exactly the child-wise extraction with
flag `true`), and it includes every descendant with no depth limit (the
extracted tree has exactly as many records as the source has nodes). -/
theorem extract_expand_flag_behavior (n : SceneNode) :
    AllNodesP (fun e => e.children = none) (extractNodeData n false)
    ∧ (∀ cs, n.children = some cs →
        (extractNodeData n true).children
          = some (cs.map (fun c => extractNodeData c true)))
    ∧ ExtractedNode.countNodes (extractNodeData n true) = SceneNode.countNodes n := by
  refine ⟨?_, ?_, countNodes_extract_aux (sizeOf n) n le_rfl⟩
  · have hnone : (extractNodeData n false).children = none := by
      cases n with
      | mk name type w h lm pasm casm paai caai fills strokes sw sa sc sj ch =>
        cases ch <;> simp [extractNodeData, ExtractedNode.children]
    exact AllNodesP.node hnone (by intro es hes; rw [hnone] at hes; cases hes)
  · intro cs hch
    cases n with
    | mk name type w h lm pasm casm paai caai fills strokes sw sa sc sj ch =>
      simp only [SceneNode.children] at hch
      subst hch
      simp [extractNodeData, ExtractedNode.children, extractChildren_eq_map]

/-- Closed instance of C2's conditional part: on a concrete one-child
container, expanded extraction recurses into the child with flag `true`. -/
theorem extract_expand_flag_behavior_witness :
    (extractNodeData demoParent true).children
      = some ([demoChild].map (fun c => extractNodeData c true)) :=
  (extract_expand_flag_behavior demoParent).2.1 [demoChild] rfl

/-- A well-formed sample paint list: one solid paint with explicit opacity,
one gradient paint with neither opacity nor color. -/
def demoPaints : List Paint :=
  [Paint.mk ("SOLID") (some (1/2)) (some (Color.mk 1 0 0 (some 1))),
   Paint.mk ("GRADIENT_LINEAR") none none]

/-- C3: the paint normalizer returns one output per input in the same
order (`result[i].type = input[i].type`), defaults a missing opacity to 1,
emits only `type` and `opacity` for non-solid paints, and attaches `color`
exactly for solid paints.  It is a total function (never fails). -/
theorem extractPaints_order_and_fields (ps : List Paint) (hwf : ∀ p ∈ ps, p.WF) :
    (extractPaints ps).length = ps.length
    ∧ ∀ (i : Nat) (p : Paint), ps[i]? = some p →
        ∃ q : ExtractedPaint, (extractPaints ps)[i]? = some q
          ∧ q.type = p.type
          ∧ (∀ o, p.opacity = some o → q.opacity = o)
          ∧ (p.opacity = none → q.opacity = 1)
          ∧ (q.color.isSome ↔ p.type = "SOLID")
          ∧ (p.type ≠ "SOLID" → q = ExtractedPaint.mk p.type (p.opacity.getD 1) none) := by
  constructor
  · exact List.length_map ps _
  · intro i p hp
    refine ⟨{ type := p.type
              opacity := p.opacity.getD 1
              color := if p.type = "SOLID" then p.color.map extractColor else none },
            ?_, rfl, ?_, ?_, ?_, ?_⟩
    · unfold extractPaints
      rw [List.getElem?_map, hp]
      rfl
    · intro o ho; simp [ho]
    · intro ho; simp [ho]
    · have hw := hwf p (List.getElem?_mem hp)
      unfold Paint.WF at hw
      by_cases hs : p.type = "SOLID"
      · simp [hs, Option.isSome_map', hw.mpr hs]
      · simp [hs]
    · intro hs; simp [hs]

/-- Closed instance of C3: the sample list yields one output per input. -/
theorem extractPaints_order_and_fields_witness :
    (extractPaints demoPaints).length = demoPaints.length :=
  (extractPaints_order_and_fields demoPaints (by decide)).1

/-- The spec's reading of a hex byte: exactly two lower-case hex digits,
high nibble then low nibble. -/
def twoHexDigits (n : Nat) : String :=
  String.mk [Nat.digitChar (n / 16), Nat.digitChar (n % 16)]

theorem padStart2_natToHexStr :
    ∀ n : Nat, n < 256 → padStart2 (natToHexStr n) = twoHexDigits n := by decide

theorem intToHexStr_nonneg {i : ℤ} (h : 0 ≤ i) :
    intToHexStr i = natToHexStr i.toNat := by
  unfold intToHexStr
  rw [if_neg (by omega)]

theorem padStart2_intToHexStr {i : ℤ} (h0 : 0 ≤ i) (h1 : i < 256) :
    padStart2 (intToHexStr i) = twoHexDigits i.toNat := by
  rw [intToHexStr_nonneg h0]
  exact padStart2_natToHexStr i.toNat (by omega)

theorem jsRound_byte_bounds {c : ℚ} (h0 : 0 ≤ c) (h1 : c ≤ 1) :
    0 ≤ jsRound (c * 255) ∧ jsRound (c * 255) < 256 := by
  unfold jsRound
  constructor
  · exact Int.le_floor.mpr (by push_cast; nlinarith)
  · exact Int.floor_lt.mpr (by push_cast; nlinarith)

theorem twoHexDigits_length (n : Nat) : (twoHexDigits n).length = 2 := rfl

/-- C4: the color codec copies the three channels unchanged, defaults a
missing alpha to 1, and derives `hex` as a hash sign followed by, per
channel, `round(channel*255)` rendered in lower-case hex and zero-padded
to width two; for in-range channels this is exactly two hex digits per
channel (seven characters in all).  The codec is total, and out-of-range
channels are passed through unclamped, as the two closed instances (pure
red, and an out-of-range red of 2) show. -/
theorem extractColor_spec (c : Color) :
    (extractColor c).r = c.r ∧ (extractColor c).g = c.g ∧ (extractColor c).b = c.b
    ∧ (∀ a, c.a = some a → (extractColor c).a = a)
    ∧ (c.a = none → (extractColor c).a = 1)
    ∧ (extractColor c).hex
        = "#" ++ padStart2 (intToHexStr (jsRound (c.r * 255)))
             ++ padStart2 (intToHexStr (jsRound (c.g * 255)))
             ++ padStart2 (intToHexStr (jsRound (c.b * 255)))
    ∧ (0 ≤ c.r → c.r ≤ 1 → 0 ≤ c.g → c.g ≤ 1 → 0 ≤ c.b → c.b ≤ 1 →
        (extractColor c).hex
          = "#" ++ twoHexDigits (jsRound (c.r * 255)).toNat
               ++ twoHexDigits (jsRound (c.g * 255)).toNat
               ++ twoHexDigits (jsRound (c.b * 255)).toNat
        ∧ ((extractColor c).hex).length = 7)
    ∧ extractColor (Color.mk 1 0 0 (some 1)) = ExtractedColor.mk 1 0 0 1 ("#ff0000")
    ∧ extractColor (Color.mk 2 0 0 none) = ExtractedColor.mk 2 0 0 1 ("#1fe0000") := by
  refine ⟨rfl, rfl, rfl, ?_, ?_, rfl, ?_, ?_, ?_⟩
  · intro a ha; simp [extractColor, ha]
  · intro ha; simp [extractColor, ha]
  · intro hr0 hr1 hg0 hg1 hb0 hb1
    obtain ⟨hrl, hru⟩ := jsRound_byte_bounds hr0 hr1
    obtain ⟨hgl, hgu⟩ := jsRound_byte_bounds hg0 hg1
    obtain ⟨hbl, hbu⟩ := jsRound_byte_bounds hb0 hb1
    have hhex : (extractColor c).hex
        = "#" ++ twoHexDigits (jsRound (c.r * 255)).toNat
             ++ twoHexDigits (jsRound (c.g * 255)).toNat
             ++ twoHexDigits (jsRound (c.b * 255)).toNat := by
      show "#" ++ padStart2 (intToHexStr (jsRound (c.r * 255)))
             ++ padStart2 (intToHexStr (jsRound (c.g * 255)))
             ++ padStart2 (intToHexStr (jsRound (c.b * 255))) = _
      rw [padStart2_intToHexStr hrl hru, padStart2_intToHexStr hgl hgu,
        padStart2_intToHexStr hbl hbu]
    refine ⟨hhex, ?_⟩
    rw [hhex]
    simp only [String.length_append, twoHexDigits_length]
    decide
  · have h255 : jsRound ((1:ℚ) * 255) = 255 := by norm_num [jsRound]
    have h0 : jsRound ((0:ℚ) * 255) = 0 := by norm_num [jsRound]
    show ExtractedColor.mk 1 0 0 ((some (1:ℚ)).getD 1)
        ("#" ++ padStart2 (intToHexStr (jsRound ((1:ℚ) * 255)))
             ++ padStart2 (intToHexStr (jsRound ((0:ℚ) * 255)))
             ++ padStart2 (intToHexStr (jsRound ((0:ℚ) * 255)))) = _
    rw [h255, h0]
    decide
  · have h510 : jsRound ((2:ℚ) * 255) = 510 := by norm_num [jsRound]
    have h0 : jsRound ((0:ℚ) * 255) = 0 := by norm_num [jsRound]
    show ExtractedColor.mk 2 0 0 ((none : Option ℚ).getD 1)
        ("#" ++ padStart2 (intToHexStr (jsRound ((2:ℚ) * 255)))
             ++ padStart2 (intToHexStr (jsRound ((0:ℚ) * 255)))
             ++ padStart2 (intToHexStr (jsRound ((0:ℚ) * 255)))) = _
    rw [h510, h0]
    decide

/-- Closed instance of C4's in-range clause at pure red: the derived hex
string has exactly seven characters. -/
theorem extractColor_spec_witness :
    ((extractColor (Color.mk 1 0 0 (some 1))).hex).length = 7 :=
  ((extractColor_spec (Color.mk 1 0 0 (some 1))).2.2.2.2.2.2.1
    (by norm_num) (by norm_num) (by norm_num) (by norm_num)
    (by norm_num) (by norm_num)).2

/-- The `data` payload of a `selectionChange` message.  `nullPayload`
models the literal `null`, `nodeList` an array of extracted trees, and
`singleNode` a bare extracted record (representable in the transport, but
never produced by the host). -/
inductive SelectionPayload where
  | nullPayload : SelectionPayload
  | nodeList (l : List ExtractedNode) : SelectionPayload
  | singleNode (e : ExtractedNode) : SelectionPayload

/-- A host-to-surface message: `selectionChange` with its payload, or
`error` with a message string. -/
inductive OutMsg where
  | selectionChange (data : SelectionPayload) : OutMsg
  | error (message : String) : OutMsg

/-- An observable host effect: posting a message to the UI, or showing a
`figma.notify` toast (whose argument may be `undefined`). -/
inductive HostOut where
  | post (m : OutMsg) : HostOut
  | notifyUser (s : Option String) : HostOut

/-- An inbound UI message as the host probes it: the `type` discriminant
plus the two payload properties the handler reads, each possibly absent
(`undefined`). -/
structure UIMsg where
  type : String
  expandContent : Option Bool
  message : Option String

/-- The host's ambient state: `figma.currentPage.selection`. -/
structure HostState where
  selection : List SceneNode

/-- Function `sendSelectionToUI` from `src/canvas.ts` (lines 116-144): posts
`selectionChange` with `null` on an empty selection, otherwise with the
array of per-node extractions in selection order. -/
def sendSelectionToUI (selection : List SceneNode) (expandContent : Bool) : OutMsg :=
  if selection.isEmpty then
    OutMsg.selectionChange SelectionPayload.nullPayload
  else
    OutMsg.selectionChange
      (SelectionPayload.nodeList
        (selection.map (fun node => extractNodeData node expandContent)))

/-- The `figma.ui.onmessage` handler from `src/canvas.ts` (lines 5-16).
A missing `expandContent` property arrives as `undefined`, which the
default parameter of `sendSelectionToUI` turns into `false`.  Unrecognized
`type` values fall through all branches and produce nothing. -/
def handleUIMessage (st : HostState) (m : UIMsg) : List HostOut :=
  if m.type = "toggleExpand" then
    [HostOut.post (sendSelectionToUI st.selection (m.expandContent.getD false))]
  else if m.type = "notify" then
    [HostOut.notifyUser m.message]
  else if m.type = "init" then
    [HostOut.post (sendSelectionToUI st.selection true)]
  else []

/-- An event the host reacts to: an inbound UI message, or a spontaneous
scene-graph selection change carrying the new selection. -/
inductive HostEvent where
  | uiMessage (m : UIMsg) : HostEvent
  | selectionchange (sel : List SceneNode) : HostEvent

/-- One host event turn.  The `figma.on('selectionchange')` handler from
`src/canvas.ts` (lines 146-149) updates the current selection and calls
`sendSelectionToUI(false)`. -/
def hostStep (st : HostState) : HostEvent → HostState × List HostOut
  | HostEvent.uiMessage m => (st, handleUIMessage st m)
  | HostEvent.selectionchange sel =>
      (HostState.mk sel, [HostOut.post (sendSelectionToUI sel false)])

/-- Runs the host over a list of events, pairing each event with the
outputs of its turn. -/
def hostRunP (st : HostState) : List HostEvent → List (HostEvent × List HostOut)
  | [] => []
  | e :: es =>
      (e, (hostStep st e).2) :: hostRunP (hostStep st e).1 es

/-- Modelled from the spec: the Surface's "last known expand preference",
true at startup (the initial extraction is expanded and the Surface's
include-children checkbox starts checked) and thereafter the payload of
the most recent `toggleExpand` message.  This state exists nowhere in the
host source; it is the quantity the spec says the host uses. -/
def lastKnownExpandPrefAux : Bool → List HostEvent → Bool
  | cur, [] => cur
  | cur, HostEvent.uiMessage m :: rest =>
      if m.type = "toggleExpand" then
        lastKnownExpandPrefAux (m.expandContent.getD false) rest
      else lastKnownExpandPrefAux cur rest
  | cur, HostEvent.selectionchange _ :: rest => lastKnownExpandPrefAux cur rest

/-- Modelled from the spec: see `lastKnownExpandPrefAux`. -/
def lastKnownExpandPref (trace : List HostEvent) : Bool :=
  lastKnownExpandPrefAux true trace

/-- The display surface's collapse of a one-element selection array before
serialization (`DefaultView.tsx`: `Array.isArray(selectionData) &&
selectionData.length === 1 ? selectionData[0] : selectionData`). -/
def dataToShow : SelectionPayload → SelectionPayload
  | SelectionPayload.nodeList [x] => SelectionPayload.singleNode x
  | p => p

/-- An inbound surface message (`event.data.pluginMessage`) as the surface
probes it: the `type` discriminant and the `data` payload, which may be
absent. -/
structure SurfaceInMsg where
  type : String
  data : Option SelectionPayload

/-- The surface's observable state: the stored selection data. -/
structure SurfaceState where
  selectionData : Option SelectionPayload

/-- The `window.onmessage` handler of the surface: ignores events whose
`pluginMessage` is absent (the `message &&` guard) and messages whose
`type` is not `selectionChange`; otherwise stores `message.data`. -/
def surfaceOnMessage (st : SurfaceState) (om : Option SurfaceInMsg) : SurfaceState :=
  match om with
  | none => st
  | some m =>
      if m.type = "selectionChange" then SurfaceState.mk m.data else st

/-- Models `Array.prototype.map` under exceptions: extraction of each element in
order, where the first throw aborts the whole map. -/
def mapExcept (f : SceneNode → Except String ExtractedNode) :
    List SceneNode → Except String (List ExtractedNode)
  | [] => Except.ok []
  | a :: as =>
      match f a with
      | Except.error e => Except.error e
      | Except.ok b =>
          match mapExcept f as with
          | Except.error e => Except.error e
          | Except.ok bs => Except.ok (b :: bs)

/-- Variant of `sendSelectionToUI` with extraction that may throw, mirroring the
`try`/`catch` of `src/canvas.ts` (lines 128-143): on any throw the host
posts the generic `error` message instead of a `selectionChange`.  The
extraction function is a parameter because in this embedding the real
extractor is total; a throwing extraction is the hypothesis of the spec's
ExtractionFailure policy. -/
def sendSelectionToUIF (ex : SceneNode → Bool → Except String ExtractedNode)
    (selection : List SceneNode) (expandContent : Bool) : OutMsg :=
  if selection.isEmpty then
    OutMsg.selectionChange SelectionPayload.nullPayload
  else
    match mapExcept (fun node => ex node expandContent) selection with
    | Except.ok data => OutMsg.selectionChange (SelectionPayload.nodeList data)
    | Except.error _ => OutMsg.error ("Failed to process selection data")

/-- The `figma.ui.onmessage` handler with throwing extraction. -/
def handleUIMessageF (ex : SceneNode → Bool → Except String ExtractedNode)
    (st : HostState) (m : UIMsg) : List HostOut :=
  if m.type = "toggleExpand" then
    [HostOut.post (sendSelectionToUIF ex st.selection (m.expandContent.getD false))]
  else if m.type = "notify" then
    [HostOut.notifyUser m.message]
  else if m.type = "init" then
    [HostOut.post (sendSelectionToUIF ex st.selection true)]
  else []

/-- One host event turn with throwing extraction. -/
def hostStepF (ex : SceneNode → Bool → Except String ExtractedNode)
    (st : HostState) : HostEvent → HostState × List HostOut
  | HostEvent.uiMessage m => (st, handleUIMessageF ex st m)
  | HostEvent.selectionchange sel =>
      (HostState.mk sel, [HostOut.post (sendSelectionToUIF ex sel false)])

/-- Runs the host with throwing extraction over a list of events. -/
def hostRunPF (ex : SceneNode → Bool → Except String ExtractedNode)
    (st : HostState) : List HostEvent → List (HostEvent × List HostOut)
  | [] => []
  | e :: es =>
      (e, (hostStepF ex st e).2) :: hostRunPF ex (hostStepF ex st e).1 es

/-- C5 (amended): on a spontaneous selection change the host always
extracts with the flag hard-coded to `false`, whatever messages came
before — the push does not use the Surface's last known expand
preference.  (Startup extraction, line 152 of the source, is the one call
with `true`.) -/
theorem spontaneous_push_uses_false :
    ∀ (trace : List HostEvent) (st : HostState) (ev : HostEvent)
      (outs : List HostOut),
      (ev, outs) ∈ hostRunP st trace →
      ∀ sel, ev = HostEvent.selectionchange sel →
        outs = [HostOut.post (sendSelectionToUI sel false)] := by
  intro trace
  induction trace with
  | nil =>
    intro st ev outs h
    simp [hostRunP] at h
  | cons e es ih =>
    intro st ev outs h sel hev
    subst hev
    rw [hostRunP] at h
    rcases List.mem_cons.mp h with h1 | h2
    · injection h1 with h1a h1b
      subst h1a
      subst h1b
      simp [hostStep]
    · exact ih _ _ _ h2 sel rfl

/-- Closed instance of C5's amended statement: a one-event trace whose
spontaneous change pushes the flag-`false` extraction. -/
theorem spontaneous_push_uses_false_witness :
    (hostStep (HostState.mk []) (HostEvent.selectionchange [demoParent])).2
      = [HostOut.post (sendSelectionToUI [demoParent] false)] :=
  spontaneous_push_uses_false
    [HostEvent.selectionchange [demoParent]] (HostState.mk []) _ _
    (List.mem_cons_self _ _) [demoParent] rfl

/-- The trace refuting C5 as stated: the surface toggles its expand
preference to `true`, then the selection changes spontaneously. -/
def cexTrace : List HostEvent :=
  [HostEvent.uiMessage (UIMsg.mk ("toggleExpand") (some true) none),
   HostEvent.selectionchange [demoParent]]

/-- C5 counterexample: after a `toggleExpand {expandContent: true}` the
Surface's last known expand preference is `true`, yet the push for the
following spontaneous selection change is the flag-`false` extraction,
which differs observably from the flag-`true` extraction the claim
requires. -/
theorem spontaneous_push_ignores_pref_counterexample :
    lastKnownExpandPref
        [HostEvent.uiMessage (UIMsg.mk ("toggleExpand") (some true) none)] = true
    ∧ (HostEvent.selectionchange [demoParent],
        [HostOut.post (sendSelectionToUI [demoParent] false)])
          ∈ hostRunP (HostState.mk []) cexTrace
    ∧ sendSelectionToUI [demoParent] false ≠ sendSelectionToUI [demoParent] true := by
  refine ⟨rfl, ?_, ?_⟩
  · exact List.mem_cons_of_mem _ (List.mem_cons_self _ _)
  · intro h
    simp [sendSelectionToUI, demoParent, demoChild, extractNodeData,
      extractChildren] at h

/-- C6 (amended): a message whose `type` discriminant is unrecognized is
silently ignored by both parties — no crash, no response, state
unchanged; likewise a surface event with no `pluginMessage`.  (Payloads
of recognized types, however, are not validated; see the
counterexample.) -/
theorem unrecognized_message_ignored :
    (∀ (st : HostState) (m : UIMsg),
        m.type ≠ "toggleExpand" → m.type ≠ "notify" → m.type ≠ "init" →
        hostStep st (HostEvent.uiMessage m) = (st, []))
    ∧ (∀ (st : SurfaceState) (m : SurfaceInMsg),
        m.type ≠ "selectionChange" → surfaceOnMessage st (some m) = st)
    ∧ (∀ st : SurfaceState, surfaceOnMessage st none = st) := by
  refine ⟨?_, ?_, fun st => rfl⟩
  · intro st m h1 h2 h3
    simp [hostStep, handleUIMessage, h1, h2, h3]
  · intro st m h
    simp [surfaceOnMessage, h]

/-- Closed instance of C6's amended statement: a bogus message type
produces no output and leaves the host state unchanged. -/
theorem unrecognized_message_ignored_witness :
    hostStep (HostState.mk []) (HostEvent.uiMessage (UIMsg.mk ("bogus") none none))
      = (HostState.mk [], []) :=
  unrecognized_message_ignored.1 (HostState.mk []) (UIMsg.mk ("bogus") none none)
    (by decide) (by decide) (by decide)

/-- C6 counterexample: a `toggleExpand` message with a malformed payload
(the `expandContent` property missing) is a recognized-type message with
a malformed payload, yet the host does not silently ignore it — it emits
a `selectionChange` response. -/
theorem malformed_toggle_not_ignored_counterexample :
    (hostStep (HostState.mk [])
        (HostEvent.uiMessage (UIMsg.mk ("toggleExpand") none none))).2
      = [HostOut.post (OutMsg.selectionChange SelectionPayload.nullPayload)]
    ∧ (hostStep (HostState.mk [])
        (HostEvent.uiMessage (UIMsg.mk ("toggleExpand") none none))).2 ≠ [] := by
  have h1 : (hostStep (HostState.mk [])
      (HostEvent.uiMessage (UIMsg.mk ("toggleExpand") none none))).2
      = [HostOut.post (OutMsg.selectionChange SelectionPayload.nullPayload)] := by
    simp [hostStep, handleUIMessage, sendSelectionToUI]
  exact ⟨h1, by simp [h1]⟩

/-- C7: if extracting any selected node throws, the host's top-level
handler catches it, posts the generic `error` message and never a
`selectionChange` for that turn, keeps its state, and continues
processing the remaining events of the session. -/
theorem extraction_failure_handling
    (ex : SceneNode → Bool → Except String ExtractedNode)
    (sel : List SceneNode) (expandContent : Bool) (msg : String)
    (hfail : mapExcept (fun node => ex node expandContent) sel = Except.error msg) :
    sendSelectionToUIF ex sel expandContent
      = OutMsg.error ("Failed to process selection data")
    ∧ (∀ d, sendSelectionToUIF ex sel expandContent ≠ OutMsg.selectionChange d)
    ∧ (∀ rest : List HostEvent,
        hostRunPF ex (HostState.mk sel)
            (HostEvent.uiMessage
              (UIMsg.mk ("toggleExpand") (some expandContent) none) :: rest)
          = (HostEvent.uiMessage
              (UIMsg.mk ("toggleExpand") (some expandContent) none),
             [HostOut.post (OutMsg.error ("Failed to process selection data"))])
            :: hostRunPF ex (HostState.mk sel) rest) := by
  have hne : sel ≠ [] := by
    intro h
    subst h
    simp [mapExcept] at hfail
  have h1 : sendSelectionToUIF ex sel expandContent
      = OutMsg.error ("Failed to process selection data") := by
    unfold sendSelectionToUIF
    rw [if_neg (by simpa using hne), hfail]
  refine ⟨h1, ?_, ?_⟩
  · intro d h
    rw [h1] at h
    exact OutMsg.noConfusion h
  · intro rest
    rw [hostRunPF]
    simp [hostStepF, handleUIMessageF, h1]

/-- An extraction that always throws, standing for the unexpected node
shape of the spec's ExtractionFailure. -/
def failExtract : SceneNode → Bool → Except String ExtractedNode :=
  fun _ _ => Except.error ("boom")

/-- Closed instance of C7: with a throwing extraction and a non-empty
selection the host posts the generic error message. -/
theorem extraction_failure_handling_witness :
    sendSelectionToUIF failExtract [demoChild] false
      = OutMsg.error ("Failed to process selection data") :=
  (extraction_failure_handling failExtract [demoChild] false ("boom") rfl).1

/-- C10: every `selectionChange` payload the host emits is `null` exactly
when the selection is empty, and otherwise the array of independently
extracted trees in selection order — never a bare single record; the
collapse of a one-element array to a single tree happens only in the
display surface (`dataToShow`) before serialization. -/
theorem selectionChange_payload_shape (sel : List SceneNode) (expandContent : Bool) :
    (sel = [] → sendSelectionToUI sel expandContent
        = OutMsg.selectionChange SelectionPayload.nullPayload)
    ∧ (sendSelectionToUI sel expandContent
        = OutMsg.selectionChange SelectionPayload.nullPayload → sel = [])
    ∧ (sel ≠ [] → sendSelectionToUI sel expandContent
        = OutMsg.selectionChange (SelectionPayload.nodeList
            (sel.map (fun node => extractNodeData node expandContent))))
    ∧ (∀ e : ExtractedNode, sendSelectionToUI sel expandContent
        ≠ OutMsg.selectionChange (SelectionPayload.singleNode e))
    ∧ (∀ e : ExtractedNode,
        dataToShow (SelectionPayload.nodeList [e]) = SelectionPayload.singleNode e) := by
  refine ⟨?_, ?_, ?_, ?_, fun e => rfl⟩
  · intro h
    subst h
    rfl
  · intro h
    cases sel with
    | nil => rfl
    | cons a as => simp [sendSelectionToUI] at h
  · intro h
    cases sel with
    | nil => exact absurd rfl h
    | cons a as => simp [sendSelectionToUI]
  · intro e h
    cases sel with
    | nil => simp [sendSelectionToUI] at h
    | cons a as => simp [sendSelectionToUI] at h

/-- Closed instance of C10: a one-node selection is pushed as a
one-element array, which only the surface collapses. -/
theorem selectionChange_payload_shape_witness :
    sendSelectionToUI [demoParent] true
      = OutMsg.selectionChange (SelectionPayload.nodeList
          ([demoParent].map (fun node => extractNodeData node true))) :=
  (selectionChange_payload_shape [demoParent] true).2.2.1 (by simp)

/-- The ASCII characters matched by the `\s` of the word-splitting regex
in `calculateTokens` (the inputs it is applied to are JSON serializations,
which contain no non-ASCII whitespace). -/
def isWsChar (c : Char) : Bool :=
  c = ' ' || c = '\t' || c = '\n' || c = '\r' || c = '\x0b' || c = '\x0c'

/-- The structural character class of `calculateTokens`: braces, square
brackets, double quote, comma, colon. -/
def isSpecialChar (c : Char) : Bool :=
  c = '\x7b' || c = '\x7d' || c = '[' || c = ']' || c = '"' || c = ',' || c = ':'

/-- Models `text.split(whitespace-run).filter(nonempty).length`: counts the
maximal non-whitespace runs by scanning with an in-word flag. -/
def countWordsAux : Bool → List Char → Nat
  | _, [] => 0
  | inWord, c :: rest =>
      if isWsChar c then countWordsAux false rest
      else if inWord then countWordsAux true rest
      else 1 + countWordsAux true rest

/-- The `wordCount` of `calculateTokens`. -/
def countWords (l : List Char) : Nat := countWordsAux false l

/-- The `specialChars` count of `calculateTokens`. -/
def countSpecial (l : List Char) : Nat := l.countP isSpecialChar

/-- Scanner state for counting the global matches of the number regex of
`calculateTokens` (digit run, optionally a dot followed by a digit run):
outside any match, inside the integer part, inside the fraction part, or
just after a dot that followed an integer part. -/
inductive NumScanState where
  | out : NumScanState
  | inInt : NumScanState
  | inFrac : NumScanState
  | dotInt : NumScanState

/-- One-pass match counter equivalent to the left-to-right global search
of the number regex: a digit seen outside a match starts (and counts) a
new match; a digit after `inInt`/`inFrac`/`dotInt` extends the current
match; a dot directly after the integer part may extend the match if a
digit follows, while any other dot terminates it. -/
def countNumbersAux : NumScanState → List Char → Nat
  | _, [] => 0
  | st, c :: rest =>
      if c.isDigit then
        match st with
        | NumScanState.out => 1 + countNumbersAux NumScanState.inInt rest
        | NumScanState.inInt => countNumbersAux NumScanState.inInt rest
        | NumScanState.inFrac => countNumbersAux NumScanState.inFrac rest
        | NumScanState.dotInt => countNumbersAux NumScanState.inFrac rest
      else if c = '.' then
        match st with
        | NumScanState.inInt => countNumbersAux NumScanState.dotInt rest
        | _ => countNumbersAux NumScanState.out rest
      else countNumbersAux NumScanState.out rest

/-- The `numbers` count of `calculateTokens`. -/
def countNumbers (l : List Char) : Nat := countNumbersAux NumScanState.out l

/-- Function `calculateTokens` from the UI sources: 0 for the empty (falsy) string,
otherwise `Math.max(1, Math.round(wordCount*1.3 + specialChars*0.3 +
numbers*0.5))`. -/
def calculateTokens (text : String) : Nat :=
  if text = "" then 0
  else
    (max 1 (jsRound ((countWords text.data : ℚ) * (13/10)
      + (countSpecial text.data : ℚ) * (3/10)
      + (countNumbers text.data : ℚ) * (1/2)))).toNat

/-- C8: the token estimator returns 0 on the empty string and otherwise
`max(1, round(wordCount*1.3 + specialCharCount*0.3 + numberTokenCount*0.5))`
over the three counters; in particular every non-empty input yields at
least 1. -/
theorem calculateTokens_spec (t : String) :
    (t = "" → calculateTokens t = 0)
    ∧ (t ≠ "" → 1 ≤ calculateTokens t
        ∧ calculateTokens t
          = (max 1 (jsRound ((countWords t.data : ℚ) * (13/10)
              + (countSpecial t.data : ℚ) * (3/10)
              + (countNumbers t.data : ℚ) * (1/2)))).toNat) := by
  constructor
  · intro h
    subst h
    rfl
  · intro h
    have heq : calculateTokens t
        = (max 1 (jsRound ((countWords t.data : ℚ) * (13/10)
            + (countSpecial t.data : ℚ) * (3/10)
            + (countNumbers t.data : ℚ) * (1/2)))).toNat := by
      rw [calculateTokens, if_neg h]
    refine ⟨?_, heq⟩
    rw [heq]
    have hmax : (1:ℤ) ≤ max 1 (jsRound ((countWords t.data : ℚ) * (13/10)
        + (countSpecial t.data : ℚ) * (3/10)
        + (countNumbers t.data : ℚ) * (1/2))) := le_max_left _ _
    omega

/-- Closed instance of C8: a one-letter input estimates to at least 1. -/
theorem calculateTokens_spec_witness : 1 ≤ calculateTokens ("a") :=
  ((calculateTokens_spec ("a")).2 (by decide)).1

/-- The seven-character JSON sample of the spec's worked example. -/
def jsonSample : String := "\x7b\"a\":1\x7d"

/-- C9 counterexample: on the worked example the structural-character
count is 5 (open brace, two quotes, colon, close brace), not 4 as
claimed. -/
theorem token_counts_counterexample : countSpecial jsonSample.data ≠ 4 := by
  decide

/-- C9 (amended): on the JSON sample the counts are wordCount 1,
specialCharCount 5 and numberTokenCount 1, and the estimate is
`round(1*1.3 + 5*0.3 + 1*0.5) = round(3.3) = 3`. -/
theorem token_counts_json_example :
    countWords jsonSample.data = 1
    ∧ countSpecial jsonSample.data = 5
    ∧ countNumbers jsonSample.data = 1
    ∧ calculateTokens jsonSample = 3 := by
  refine ⟨by decide, by decide, by decide, ?_⟩
  have h : jsonSample ≠ "" := by decide
  rw [calculateTokens, if_neg h]
  have hw : countWords jsonSample.data = 1 := by decide
  have hs : countSpecial jsonSample.data = 5 := by decide
  have hn : countNumbers jsonSample.data = 1 := by decide
  rw [hw, hs, hn]
  norm_num [jsRound]
  rfl
